import Mathlib

/-!
Verification of the Bridge Process Orchestrator of `admin-backend/server.js`.

The JavaScript source is shallowly embedded as follows:

* A persisted user record (one element of `users.json`) becomes `UserRec`;
  JavaScript `null`/`undefined` pids become `Option.none`, the `status`
  field keeps its string values `"running"` / `"stopped"`.
* The in-memory `bridgeProcesses` object (userId -> { process, pid })
  becomes an association list `List (String × Option Nat)`; JavaScript
  object assignment / `delete` become `regSet` / `regDelete`.  The `pid`
  of a handle is `none` when `spawn` failed (then `proc.pid` is
  `undefined` in Node).
* The whole observable server state is `SState`: registry, persisted
  users, the set of user ids whose generated config artifact exists,
  a fresh-pid counter modelling the OS allocator, the live child
  processes, and the exit notifications that were generated but not yet
  delivered to the `proc.on('exit')` handler.
* Each route handler is a function on `SState` that also returns the
  list of externally visible actions (`Ev`) it performed, in order.
* `async` handlers are split into their atomic segments at `await`
  points (the only `await`s are on `killUserBridge`, whose promise
  resolves in the `exec` callback); the sequential API functions are the
  composition of their segments.  `Step` closes the segments (plus
  asynchronous exit delivery and spontaneous crashes) into a transition
  relation, and `Reachable` is its reflexive-transitive closure from a
  freshly started server.
-/

/-- One RSS feed descriptor of a user record. -/
structure Feed where
  id : String
  title : String
  url : String
  category : String
deriving DecidableEq, Repr

/-- A persisted user record, one entry of `users.json`. -/
structure UserRec where
  id : String
  name : String
  mcpEndpoint : String
  braveEnabled : Bool
  braveApiKey : String
  weatherEnabled : Bool
  feeds : List Feed
  status : String
  pid : Option Nat
  createdAt : String
deriving DecidableEq, Repr

/-- `PYTHON_PATH` constant of server.js. -/
def PYTHON_PATH : String :=
  "C:\\Users\\Administrator\\AppData\\Local\\Programs\\Python\\Python313\\python.exe"

/-- One capability descriptor of the generated `mcpServers` map: either a
remote (url, transport) entry or a local (command, args, transport) entry. -/
inductive Desc where
  | remote (url : String) (transport : String)
  | command (command : String) (args : List String) (transport : String)
deriving DecidableEq, Repr

/-- The capability map of `generateUserConfig` (the pure content of the
written `config_<id>.json`): `mcpServers` keyed by capability name. -/
def generateUserConfig (user : UserRec) : List (String × Desc) :=
  (if user.braveEnabled ∧ user.braveApiKey ≠ "" then
      [("brave-search", Desc.remote "http://localhost:8080/sse" "sse")]
    else [])
  ++ (if user.weatherEnabled then
      [("weather", Desc.command PYTHON_PATH ["weather-server.py"] "stdio")]
    else [])
  ++ [("rss-news", Desc.command PYTHON_PATH ["rss-server.py", "--user", user.id] "stdio")]

/-- Externally visible actions of the orchestrator, in program order. -/
inductive Ev where
  | sigkill (pid : Option Nat)
  | patternKill (uid : String)
  | writeConfig (uid : String)
  | spawn (pid : Option Nat)
  | unlinkConfig (uid : String)
  | writeUsersFile
deriving DecidableEq, Repr

/-- The observable state of the admin-backend server process. -/
structure SState where
  registry : List (String × Option Nat)
  users : List UserRec
  configs : List String
  nextPid : Nat
  live : List (String × Nat)
  pending : List (String × Nat)
deriving DecidableEq, Repr

/-- `bridgeProcesses[userId]` (JavaScript object read). -/
def regGet (rg : List (String × Option Nat)) (uid : String) : Option (Option Nat) :=
  (rg.find? (fun e => e.1 == uid)).map Prod.snd

/-- `delete bridgeProcesses[userId]` (JavaScript object delete). -/
def regDelete (rg : List (String × Option Nat)) (uid : String) : List (String × Option Nat) :=
  rg.filter (fun e => ¬ (e.1 == uid))

/-- `bridgeProcesses[userId] = h` (JavaScript object assignment: replace the
binding in place when the key exists, otherwise append it). -/
def regSet (rg : List (String × Option Nat)) (uid : String) (h : Option Nat) :
    List (String × Option Nat) :=
  if rg.any (fun e => e.1 == uid) then
    rg.map (fun e => if e.1 == uid then (uid, h) else e)
  else rg ++ [(uid, h)]

/-- Number of registry bindings for a user id. -/
def countKey (uid : String) (rg : List (String × Option Nat)) : Nat :=
  (rg.filter (fun e => e.1 == uid)).length

/-- Ensure the config artifact for a user exists (`fs.writeFileSync` of the
generated config: create or overwrite). -/
def insertConfig (uid : String) (cfgs : List String) : List String :=
  if uid ∈ cfgs then cfgs else uid :: cfgs

/-- `findIndex` followed by an in-place mutation of that element: update the
first element satisfying `p`, leave the list unchanged when there is none. -/
def updateFirst (p : α → Bool) (f : α → α) : List α → List α
  | [] => []
  | x :: xs => if p x then f x :: xs else x :: updateFirst p f xs

/-- Remove one occurrence of a delivered exit notification. -/
def removeOne (x : String × Nat) : List (String × Nat) → List (String × Nat)
  | [] => []
  | y :: ys => if y = x then ys else y :: removeOne x ys

/-- `killUserBridge(userId)`: if the registry holds a handle, SIGKILL its
process and delete the binding; then the `wmic` sweep terminates every
remaining live process launched for this user.  Every killed process will
later emit its `exit` notification, so it moves from `live` to `pending`. -/
def killUserBridge (uid : String) (s : SState) : SState × List Ev :=
  let dead := s.live.filter (fun e => e.1 == uid)
  let live' := s.live.filter (fun e => ¬ (e.1 == uid))
  match regGet s.registry uid with
  | some h =>
      ({ s with registry := regDelete s.registry uid,
                live := live', pending := s.pending ++ dead },
       [Ev.sigkill h, Ev.patternKill uid])
  | none =>
      ({ s with live := live', pending := s.pending ++ dead },
       [Ev.patternKill uid])

/-- The part of `startUserBridge` after `await killUserBridge(...)` returns:
write the generated config artifact, `spawn` the bridge (on success the OS
hands out a fresh pid; on failure `proc.pid` is `undefined`), register the
handle, then re-read `users.json` and persist `status='running'`,
`pid=proc.pid`. -/
def startSeg2 (spawnOk : Bool) (user : UserRec) (s : SState) : SState × List Ev :=
  let pid : Option Nat := if spawnOk then some s.nextPid else none
  let s1 : SState :=
    { s with configs := insertConfig user.id s.configs,
             nextPid := s.nextPid + 1,
             live := if spawnOk then s.live ++ [(user.id, s.nextPid)] else s.live,
             registry := regSet s.registry user.id pid }
  let setRunning : UserRec → UserRec := fun u => { u with status := "running", pid := pid }
  match s1.users.findIdx? (fun u => u.id == user.id) with
  | some _ =>
      ({ s1 with users := updateFirst (fun u => u.id == user.id) setRunning s1.users },
       [Ev.writeConfig user.id, Ev.spawn pid, Ev.writeUsersFile])
  | none => (s1, [Ev.writeConfig user.id, Ev.spawn pid])

/-- `startUserBridge(user)`: kill any previous bridge of the user, bail out
returning `false` when the user has no `mcpEndpoint`, otherwise run the
post-await segment and return `true`. -/
def startUserBridge (spawnOk : Bool) (user : UserRec) (s : SState) :
    Bool × SState × List Ev :=
  let k := killUserBridge user.id s
  if user.mcpEndpoint = "" then (false, k.1, k.2)
  else
    let r := startSeg2 spawnOk user k.1
    (true, r.1, k.2 ++ r.2)

/-- The `proc.on('exit')` callback body for the user it closed over: delete
the registry binding for that user id (unconditionally), then re-read
`users.json` and, when the record still exists, persist `status='stopped'`,
`pid=null`. -/
def exitHandler (uid : String) (s : SState) : SState × List Ev :=
  let s1 : SState := { s with registry := regDelete s.registry uid }
  let setStopped : UserRec → UserRec := fun u => { u with status := "stopped", pid := none }
  match s1.users.findIdx? (fun u => u.id == uid) with
  | some _ =>
      ({ s1 with users := updateFirst (fun u => u.id == uid) setStopped s1.users },
       [Ev.writeUsersFile])
  | none => (s1, [])

/-- Delivery of a pending exit notification `(uid, p)`: the notification is
consumed and the exit handler spawned for that user runs. -/
def deliverExit (uid : String) (p : Nat) (s : SState) : SState :=
  (exitHandler uid { s with pending := removeOne (uid, p) s.pending }).1

/-- A live worker terminates on its own: its exit notification becomes
pending. -/
def crashStep (uid : String) (p : Nat) (s : SState) : SState :=
  { s with live := s.live.filter (fun e => ¬ (e = (uid, p))),
           pending := s.pending ++ [(uid, p)] }

/-- Outcome of `POST /api/users/:id/start`. -/
inductive StartOut where
  | notFound
  | missingEndpoint
  | started
deriving DecidableEq, Repr

/-- `POST /api/users/:id/start`: 404 when the user record does not exist,
400 when its `mcpEndpoint` is empty, otherwise run `startUserBridge`. -/
def apiStart (uid : String) (spawnOk : Bool) (s : SState) :
    StartOut × SState × List Ev :=
  match s.users.find? (fun u => u.id == uid) with
  | none => (StartOut.notFound, s, [])
  | some user =>
      if user.mcpEndpoint = "" then (StartOut.missingEndpoint, s, [])
      else
        let r := startUserBridge spawnOk user s
        (StartOut.started, r.2.1, r.2.2)

/-- The resumption of the stop route after `await killUserBridge(...)`: it
mutates the `data` it read *before* the await (`captured`) — setting the
user's status to stopped and pid to null — and overwrites `users.json`
with that array. -/
def stopSeg2 (uid : String) (captured : List UserRec) (s : SState) : SState × List Ev :=
  let setStopped : UserRec → UserRec := fun u => { u with status := "stopped", pid := none }
  ({ s with users := updateFirst (fun u => u.id == uid) setStopped captured },
   [Ev.writeUsersFile])

/-- `POST /api/users/:id/stop`: 404 when the record does not exist, else
kill the bridge, then persist `status='stopped'`, `pid=null`. -/
def apiStop (uid : String) (s : SState) : Bool × SState × List Ev :=
  match s.users.find? (fun u => u.id == uid) with
  | none => (false, s, [])
  | some user =>
      let k := killUserBridge user.id s
      let w := stopSeg2 uid s.users k.1
      (true, w.1, k.2 ++ w.2)

/-- The remainder of the delete route after its await: `fs.unlinkSync` of
the config artifact inside `try/catch` (a failing unlink changes nothing
and is swallowed), then `splice` the record out of the `data` captured
before the await and overwrite `users.json`. -/
def deleteFinish (uid : String) (unlinkFails : Bool) (captured : List UserRec)
    (i : Nat) (s : SState) : SState × List Ev :=
  ({ s with configs := if unlinkFails then s.configs
                       else s.configs.filter (fun c => ¬ (c == uid)),
            users := captured.eraseIdx i },
   [Ev.unlinkConfig uid, Ev.writeUsersFile])

/-- `DELETE /api/users/:id`: 404 when the record does not exist, else stop
the bridge first, then remove the config artifact, then erase the record. -/
def apiDelete (uid : String) (unlinkFails : Bool) (s : SState) :
    Bool × SState × List Ev :=
  match s.users.findIdx? (fun u => u.id == uid) with
  | none => (false, s, [])
  | some i =>
      let k := killUserBridge uid s
      let d := deleteFinish uid unlinkFails s.users i k.1
      (true, d.1, k.2 ++ d.2)

/-- The request body of `POST /api/users`.  Only the six destructured
fields are ever read by the handler; `status` and `pid` are carried here
to express that caller-supplied values for them are ignored. -/
structure CreateBody where
  name : Option String
  mcpEndpoint : Option String
  braveEnabled : Option Bool
  braveApiKey : Option String
  weatherEnabled : Option Bool
  feeds : Option (List Feed)
  status : Option String
  pid : Option (Option Nat)
deriving DecidableEq, Repr

/-- `POST /api/users`: reject a missing or empty name, otherwise append a
new record with `id = 'user_' + Date.now()`, defaults for every omitted
field, `status='stopped'` and `pid=null`. -/
def apiCreate (body : CreateBody) (now : Nat) (createdAt : String) (s : SState) :
    Option UserRec × SState × List Ev :=
  match body.name with
  | none => (none, s, [])
  | some nm =>
      if nm = "" then (none, s, [])
      else
        let newUser : UserRec :=
          { id := "user_" ++ toString now,
            name := nm,
            mcpEndpoint := body.mcpEndpoint.getD "",
            braveEnabled := body.braveEnabled.getD false,
            braveApiKey := body.braveApiKey.getD "",
            weatherEnabled := body.weatherEnabled.getD false,
            feeds := body.feeds.getD [],
            status := "stopped",
            pid := none,
            createdAt := createdAt }
        (some newUser, { s with users := s.users ++ [newUser] }, [Ev.writeUsersFile])

/-- The request body of `PUT /api/users/:id` (every field optional;
`if (x !== undefined) record.x = x`). -/
structure UpdateBody where
  name : Option String
  mcpEndpoint : Option String
  braveEnabled : Option Bool
  braveApiKey : Option String
  weatherEnabled : Option Bool
  feeds : Option (List Feed)
deriving DecidableEq, Repr

/-- Apply the defined fields of an update body to a record. -/
def applyBody (body : UpdateBody) (u : UserRec) : UserRec :=
  { u with name := body.name.getD u.name,
           mcpEndpoint := body.mcpEndpoint.getD u.mcpEndpoint,
           braveEnabled := body.braveEnabled.getD u.braveEnabled,
           braveApiKey := body.braveApiKey.getD u.braveApiKey,
           weatherEnabled := body.weatherEnabled.getD u.weatherEnabled,
           feeds := body.feeds.getD u.feeds }

/-- The synchronous first part of `PUT /api/users/:id`: update the record's
fields and overwrite `users.json`. -/
def updateFields (uid : String) (body : UpdateBody) (s : SState) : SState × List Ev :=
  ({ s with users := updateFirst (fun u => u.id == uid) (applyBody body) s.users },
   [Ev.writeUsersFile])

/-- `PUT /api/users/:id`: 404 when the record does not exist, else persist
the field updates, and restart the bridge when the record's status is
`running`. -/
def apiUpdate (uid : String) (body : UpdateBody) (spawnOk : Bool) (s : SState) :
    Bool × SState × List Ev :=
  match s.users.findIdx? (fun u => u.id == uid) with
  | none => (false, s, [])
  | some _ =>
      let w := updateFields uid body s
      match w.1.users.find? (fun u => u.id == uid) with
      | some u2 =>
          if u2.status = "running" then
            let r := startUserBridge spawnOk u2 w.1
            (true, r.2.1, w.2 ++ r.2.2)
          else (true, w.1, w.2)
      | none => (true, w.1, w.2)

/-- `GET /api/users`: the user list with the stored search key replaced by
`'***'` when non-empty and `''` when empty. -/
def listUsers (s : SState) : List UserRec :=
  s.users.map (fun u =>
    { u with braveApiKey := if u.braveApiKey ≠ "" then "***" else "" })

/-- The persisted record of a user, as the routes look it up. -/
def recOf (uid : String) (s : SState) : Option UserRec :=
  s.users.find? (fun u => u.id == uid)

/-- State projection of `apiStart`. -/
def apiStartS (uid : String) (spawnOk : Bool) (s : SState) : SState :=
  (apiStart uid spawnOk s).2.1

/-- State projection of `apiStop`. -/
def apiStopS (uid : String) (s : SState) : SState :=
  (apiStop uid s).2.1

/-- State projection of `apiDelete`. -/
def apiDeleteS (uid : String) (unlinkFails : Bool) (s : SState) : SState :=
  (apiDelete uid unlinkFails s).2.1

/-- State projection of `apiCreate`. -/
def apiCreateS (body : CreateBody) (now : Nat) (createdAt : String) (s : SState) : SState :=
  (apiCreate body now createdAt s).2.1

/-- State projection of `apiUpdate`. -/
def apiUpdateS (uid : String) (body : UpdateBody) (spawnOk : Bool) (s : SState) : SState :=
  (apiUpdate uid body spawnOk s).2.1

/-- The synchronous prefix of the start route up to the `await` inside
`startUserBridge` (lookup, endpoint check, kill), returning the captured
`user` object the resumption closes over. -/
def startSeg1 (uid : String) (s : SState) :
    Option UserRec × SState × List Ev :=
  match s.users.find? (fun u => u.id == uid) with
  | none => (none, s, [])
  | some user =>
      if user.mcpEndpoint = "" then (none, s, [])
      else
        let k := killUserBridge user.id s
        (some user, k.1, k.2)

/-- The synchronous prefix of the stop route up to its `await` (lookup and
kill), returning the captured `data.users` array the resumption mutates. -/
def stopSeg1 (uid : String) (s : SState) :
    Option (List UserRec) × SState × List Ev :=
  match s.users.find? (fun u => u.id == uid) with
  | none => (none, s, [])
  | some user =>
      let k := killUserBridge user.id s
      (some s.users, k.1, k.2)

/-- An atomic step of the server: one synchronous segment of a route
handler, a delivery of a pending exit notification, or a spontaneous
worker crash.  The segment parameters over-approximate the values a
concurrent execution may have captured before its `await`. -/
inductive Step : SState → SState → Prop where
  | kill (uid : String) (s : SState) : Step s (killUserBridge uid s).1
  | spawn (spawnOk : Bool) (user : UserRec) (s : SState) :
      Step s (startSeg2 spawnOk user s).1
  | stopWrite (uid : String) (captured : List UserRec) (s : SState) :
      Step s (stopSeg2 uid captured s).1
  | delFinish (uid : String) (unlinkFails : Bool) (captured : List UserRec)
      (i : Nat) (s : SState) :
      Step s (deleteFinish uid unlinkFails captured i s).1
  | create (body : CreateBody) (now : Nat) (createdAt : String) (s : SState) :
      Step s (apiCreateS body now createdAt s)
  | updateF (uid : String) (body : UpdateBody) (s : SState) :
      Step s (updateFields uid body s).1
  | exitNote (uid : String) (p : Nat) (s : SState) (h : (uid, p) ∈ s.pending) :
      Step s (deliverExit uid p s)
  | crash (uid : String) (p : Nat) (s : SState) (h : (uid, p) ∈ s.live) :
      Step s (crashStep uid p s)

/-- The state of a freshly started server process: empty process table, no
children, no pending notifications; `users.json` and leftover config
artifacts arbitrary. -/
def initState (users0 : List UserRec) (cfg0 : List String) : SState :=
  { registry := [], users := users0, configs := cfg0,
    nextPid := 0, live := [], pending := [] }

/-- A state the orchestrator can actually be in. -/
def Reachable (s : SState) : Prop :=
  ∃ users0 cfg0, Relation.ReflTransGen Step (initState users0 cfg0) s

/-! ### Derived definitions and concrete states used by the development -/

def regKeys (rg : List (String × Option Nat)) : List String := rg.map Prod.fst

def RegOk (s : SState) : Prop := (regKeys s.registry).Nodup

def ConsistentFor (uid : String) (s : SState) : Prop :=
  ¬ ((regGet s.registry uid).isSome = true
       ∧ (recOf uid s).map UserRec.status = some "stopped")
  ∧ ¬ (regGet s.registry uid = none
       ∧ (recOf uid s).map UserRec.status = some "running"
       ∧ ((recOf uid s).bind UserRec.pid) ≠ none)

instance (uid : String) (s : SState) : Decidable (ConsistentFor uid s) := by
  unfold ConsistentFor
  exact inferInstance

def KeyMaskedEq (a b : UserRec) : Prop :=
  a = b ∨ (a.braveApiKey ≠ "" ∧ b.braveApiKey ≠ ""
    ∧ ({ a with braveApiKey := "" } : UserRec) = { b with braveApiKey := "" })

def demoUser : UserRec :=
  { id := "u1", name := "Alice", mcpEndpoint := "wss://x",
    braveEnabled := false, braveApiKey := "", weatherEnabled := true,
    feeds := [], status := "stopped", pid := none, createdAt := "t0" }

def demoInit : SState := initState [demoUser] []

def raceState : SState := apiStartS "u1" true (apiStartS "u1" true demoInit)

def interleavedState : SState :=
  let afterStopKill := (stopSeg1 "u1" demoInit).2.1
  let afterStartKill := (startSeg1 "u1" afterStopKill).2.1
  let afterSpawn := (startSeg2 true demoUser afterStartKill).1
  (stopSeg2 "u1" demoInit.users afterSpawn).1

def demoNoEndpoint : UserRec := { demoUser with id := "u2", mcpEndpoint := "" }

def noEpInit : SState := initState [demoNoEndpoint] []

def demoBody : CreateBody :=
  { name := some "Bob", mcpEndpoint := none, braveEnabled := none,
    braveApiKey := none, weatherEnabled := none, feeds := none,
    status := some "running", pid := some (some 9) }

def demoCreated : UserRec :=
  { id := "user_42", name := "Bob", mcpEndpoint := "", braveEnabled := false,
    braveApiKey := "", weatherEnabled := false, feeds := [],
    status := "stopped", pid := none, createdAt := "t1" }

def secretUserA : UserRec := { demoUser with id := "u3", braveApiKey := "KEY-A" }

def secretUserB : UserRec := { demoUser with id := "u3", braveApiKey := "KEY-B" }


/-! ### Helper lemmas -/

theorem updateFirst_find? {α} (p : α → Bool) (f : α → α)
    (hp : ∀ a, p (f a) = p a) :
    ∀ l : List α, (updateFirst p f l).find? p = (l.find? p).map f := by
  intro l
  induction l with
  | nil => rfl
  | cons x xs ih =>
    rw [updateFirst]
    by_cases hx : p x
    · simp [hx, List.find?_cons, hp x]
    · have hx' : p x = false := by simp [hx]
      simp [hx', List.find?_cons, ih]

theorem updateFirst_eq_self {α} (p : α → Bool) (f : α → α) :
    ∀ (l : List α) (a : α), l.find? p = some a → f a = a → updateFirst p f l = l := by
  intro l
  induction l with
  | nil => intro a h; simp at h
  | cons x xs ih =>
    intro a h hfa
    by_cases hx : p x
    · rw [List.find?_cons_of_pos _ hx] at h
      injection h with h
      subst h
      simp [updateFirst, hx, hfa]
    · have hx' : p x = false := by simp [hx]
      rw [List.find?_cons_of_neg _ hx] at h
      simp [updateFirst, hx', ih a h hfa]

theorem findIdx?_isSome_eq_find?_isSome {α} (p : α → Bool) :
    ∀ (l : List α) (i : Nat), (List.findIdx? p l i).isSome = (l.find? p).isSome := by
  intro l
  induction l with
  | nil => intro i; rfl
  | cons x xs ih =>
    intro i
    by_cases hx : p x
    · simp [List.findIdx?_cons, hx, List.find?_cons]
    · have hx' : p x = false := by simp [hx]
      simp [List.findIdx?_cons, hx', List.find?_cons, ih]

theorem findIdx?_some_of_find?_some {α} (p : α → Bool) (l : List α) (a : α)
    (h : l.find? p = some a) : ∃ i, List.findIdx? p l 0 = some i := by
  have h1 := findIdx?_isSome_eq_find?_isSome p l 0
  rw [h] at h1
  simp only [Option.isSome_some] at h1
  exact Option.isSome_iff_exists.mp h1

theorem findIdx?_none_of_find?_none {α} (p : α → Bool) (l : List α)
    (h : l.find? p = none) : List.findIdx? p l 0 = none := by
  have h1 := findIdx?_isSome_eq_find?_isSome p l 0
  rw [h] at h1
  simp only [Option.isSome_none] at h1
  exact Option.not_isSome_iff_eq_none.mp (by simp [h1])

theorem regGet_regDelete (rg : List (String × Option Nat)) (uid : String) :
    regGet (regDelete rg uid) uid = none := by
  induction rg with
  | nil => rfl
  | cons e es ih =>
    by_cases he : e.1 = uid
    · simp only [regDelete] at ih ⊢
      simpa [he] using ih
    · simpa [regDelete, regGet, he, List.find?_cons] using ih

theorem regGet_regSet_self (rg : List (String × Option Nat)) (uid : String) (h : Option Nat) :
    regGet (regSet rg uid h) uid = some h := by
  by_cases hany : rg.any (fun e => e.1 == uid) = true
  · rw [regSet, if_pos hany]
    revert hany
    induction rg with
    | nil => intro hany; exact absurd hany Bool.false_ne_true
    | cons e es ih =>
      intro hany
      by_cases he : e.1 = uid
      · simp [regGet, he, List.find?_cons]
      · rw [List.any_cons] at hany
        simp only [Bool.or_eq_true, beq_iff_eq] at hany
        rcases hany with h1 | h2
        · exact absurd h1 he
        · simpa [regGet, List.find?_cons, he] using ih h2
  · rw [regSet, if_neg hany]
    revert hany
    induction rg with
    | nil => intro _; simp [regGet, List.find?]
    | cons e es ih =>
      intro hany
      rw [List.any_cons] at hany
      simp only [Bool.or_eq_true, not_or, beq_iff_eq] at hany
      simpa [regGet, List.find?_cons, hany.1] using ih (by simp [hany.2])

theorem countKey_regDelete_self (rg : List (String × Option Nat)) (uid : String) :
    countKey uid (regDelete rg uid) = 0 := by
  induction rg with
  | nil => rfl
  | cons e es ih =>
    by_cases he : e.1 = uid
    · simpa [regDelete, countKey, he] using ih
    · simpa [regDelete, countKey, List.filter_cons, he] using ih

theorem countKey_regSet_after_delete (rg : List (String × Option Nat)) (uid : String)
    (h : Option Nat) :
    countKey uid (regSet (regDelete rg uid) uid h) = 1 := by
  have hany : (regDelete rg uid).any (fun e => e.1 == uid) = false := by
    rw [List.any_eq_false]
    intro e he
    have hmem := List.of_mem_filter he
    simp only [beq_iff_eq]
    intro hcon
    simp [hcon] at hmem
  rw [regSet, hany]
  simp only [Bool.false_eq_true, if_false]
  rw [countKey, List.filter_append]
  have h0 : (regDelete rg uid).filter (fun e => e.1 == uid) = [] := by
    rw [List.filter_eq_nil_iff]
    intro e he
    have hmem := List.of_mem_filter he
    simp only [beq_iff_eq]
    intro hcon
    simp [hcon] at hmem
  simp [h0]

theorem regKeys_nodup_regDelete (rg : List (String × Option Nat)) (uid : String)
    (h : (regKeys rg).Nodup) : (regKeys (regDelete rg uid)).Nodup :=
  h.sublist ((List.filter_sublist rg).map Prod.fst)

theorem regKeys_nodup_regSet (rg : List (String × Option Nat)) (uid : String)
    (p : Option Nat) (h : (regKeys rg).Nodup) : (regKeys (regSet rg uid p)).Nodup := by
  by_cases hany : rg.any (fun e => e.1 == uid) = true
  · rw [regSet, if_pos hany]
    have hk : regKeys (rg.map (fun e => if e.1 == uid then (uid, p) else e)) = regKeys rg := by
      rw [regKeys, List.map_map]
      refine List.map_congr_left ?_
      intro e _
      by_cases he : e.1 = uid
      · simp [he]
      · simp [he]
    rwa [hk]
  · rw [regSet, if_neg hany]
    rw [regKeys, List.map_append, List.nodup_append]
    refine ⟨h, by simp, ?_⟩
    intro a ha hb
    simp only [List.map_cons, List.map_nil, List.mem_singleton] at hb
    subst hb
    rw [List.any_eq_true] at hany
    rw [List.mem_map] at ha
    obtain ⟨e, he, hk⟩ := ha
    exact hany ⟨e, he, by simp [hk]⟩

theorem regDelete_of_regGet_none (rg : List (String × Option Nat)) (uid : String)
    (h : regGet rg uid = none) : regDelete rg uid = rg := by
  rw [regDelete, List.filter_eq_self]
  intro e he
  have h2 : List.find? (fun e => e.1 == uid) rg = none := by
    cases hf : List.find? (fun e => e.1 == uid) rg
    · rfl
    · rw [regGet, hf] at h; simp at h
  rw [List.find?_eq_none] at h2
  simpa using h2 e he

theorem regDelete_idem (rg : List (String × Option Nat)) (uid : String) :
    regDelete (regDelete rg uid) uid = regDelete rg uid := by
  induction rg with
  | nil => rfl
  | cons e es ih =>
    by_cases he : e.1 = uid
    · simpa [regDelete, List.filter_cons, he] using ih
    · simpa [regDelete, List.filter_cons, he] using ih

theorem filter_key_of_filter_not (uid : String) :
    ∀ l : List (String × Nat),
      (l.filter (fun e => ¬ (e.1 == uid))).filter (fun e => e.1 == uid) = [] := by
  intro l
  induction l with
  | nil => rfl
  | cons e es ih =>
    by_cases he : e.1 = uid
    · simpa [List.filter_cons, he] using ih
    · simpa [List.filter_cons, he] using ih

theorem filter_not_key_idem (uid : String) :
    ∀ l : List (String × Nat),
      (l.filter (fun e => ¬ (e.1 == uid))).filter (fun e => ¬ (e.1 == uid))
        = l.filter (fun e => ¬ (e.1 == uid)) := by
  intro l
  induction l with
  | nil => rfl
  | cons e es ih =>
    by_cases he : e.1 = uid
    · simpa [List.filter_cons, he] using ih
    · simpa [List.filter_cons, he] using ih

theorem killUserBridge_registry (uid : String) (s : SState) :
    (killUserBridge uid s).1.registry = regDelete s.registry uid := by
  rw [killUserBridge]
  cases hk : regGet s.registry uid
  · simp [regDelete_of_regGet_none _ _ hk]
  · simp

theorem killUserBridge_users (uid : String) (s : SState) :
    (killUserBridge uid s).1.users = s.users := by
  rw [killUserBridge]; cases regGet s.registry uid <;> rfl

theorem killUserBridge_nextPid (uid : String) (s : SState) :
    (killUserBridge uid s).1.nextPid = s.nextPid := by
  rw [killUserBridge]; cases regGet s.registry uid <;> rfl

theorem killUserBridge_configs (uid : String) (s : SState) :
    (killUserBridge uid s).1.configs = s.configs := by
  rw [killUserBridge]; cases regGet s.registry uid <;> rfl

theorem killUserBridge_state (uid : String) (s : SState) :
    (killUserBridge uid s).1 =
      { s with registry := regDelete s.registry uid,
               live := s.live.filter (fun e => ¬ (e.1 == uid)),
               pending := s.pending ++ s.live.filter (fun e => e.1 == uid) } := by
  rw [killUserBridge]
  cases hk : regGet s.registry uid
  · simp [regDelete_of_regGet_none _ _ hk]
  · rfl

theorem killUserBridge_events_some (uid : String) (s : SState) (h0 : Option Nat)
    (h : regGet s.registry uid = some h0) :
    (killUserBridge uid s).2 = [Ev.sigkill h0, Ev.patternKill uid] := by
  simp only [killUserBridge, h]

theorem startSeg2_registry (ok : Bool) (user : UserRec) (s : SState) :
    (startSeg2 ok user s).1.registry
      = regSet s.registry user.id (if ok then some s.nextPid else none) := by
  rw [startSeg2]
  cases List.findIdx? (fun u => u.id == user.id) s.users <;> rfl

theorem exitHandler_registry (uid : String) (s : SState) :
    (exitHandler uid s).1.registry = regDelete s.registry uid := by
  rw [exitHandler]
  cases List.findIdx? (fun u => u.id == uid) s.users <;> rfl

theorem apiCreateS_registry (body : CreateBody) (now : Nat) (ca : String) (s : SState) :
    (apiCreateS body now ca s).registry = s.registry := by
  rw [apiCreateS, apiCreate]
  cases body.name with
  | none => rfl
  | some nm => by_cases hnm : nm = "" <;> simp [hnm]

theorem step_preserves_RegOk (s t : SState) (hs : RegOk s) (hst : Step s t) : RegOk t := by
  cases hst with
  | kill uid s =>
      rw [RegOk, killUserBridge_registry]
      exact regKeys_nodup_regDelete _ _ hs
  | spawn ok user s =>
      rw [RegOk, startSeg2_registry]
      exact regKeys_nodup_regSet _ _ _ hs
  | stopWrite uid captured s => exact hs
  | delFinish uid uf captured i s => exact hs
  | create body now ca s =>
      rw [RegOk, apiCreateS_registry]
      exact hs
  | updateF uid body s => exact hs
  | exitNote uid p s h =>
      rw [RegOk, deliverExit, exitHandler_registry]
      exact regKeys_nodup_regDelete _ _ hs
  | crash uid p s h => exact hs

theorem reachable_RegOk (s : SState) (hs : Reachable s) : RegOk s := by
  obtain ⟨u0, c0, h⟩ := hs
  induction h with
  | refl => simp [RegOk, initState, regKeys]
  | tail hab hbc ih => exact step_preserves_RegOk _ _ ih hbc

theorem countKey_le_one_of_nodup (rg : List (String × Option Nat)) (uid : String)
    (h : (regKeys rg).Nodup) : countKey uid rg ≤ 1 := by
  have h1 : countKey uid rg = (regKeys rg).count uid := by
    rw [countKey, ← List.countP_eq_length_filter, regKeys, List.count_eq_countP, List.countP_map]
    rfl
  rw [h1]
  exact List.nodup_iff_count_le_one.mp h uid

theorem find?_user_id (l : List UserRec) (uid : String) (user : UserRec)
    (h : l.find? (fun u => u.id == uid) = some user) : user.id = uid := by
  have := List.find?_some h
  simpa using this

theorem apiStart_success_registry (uid : String) (ok : Bool) (s : SState)
    (h : (apiStart uid ok s).1 = StartOut.started) :
    (apiStart uid ok s).2.1.registry
      = regSet (regDelete s.registry uid) uid (if ok then some s.nextPid else none) := by
  rcases hf : s.users.find? (fun u => u.id == uid) with _ | user
  · rw [apiStart, hf] at h; exact absurd h (by simp)
  · have hid : user.id = uid := find?_user_id _ _ _ hf
    simp only [apiStart, hf] at h ⊢
    by_cases he : user.mcpEndpoint = ""
    · rw [if_pos he] at h; exact absurd h (by simp)
    · rw [if_neg he] at h ⊢
      show (startUserBridge ok user s).2.1.registry = _
      rw [startUserBridge]
      rw [if_neg he]
      show (startSeg2 ok user (killUserBridge user.id s).1).1.registry = _
      rw [startSeg2_registry, killUserBridge_registry, killUserBridge_nextPid, hid]

theorem apiStart_users (uid : String) (ok : Bool) (s : SState) (user : UserRec)
    (hf : s.users.find? (fun u => u.id == uid) = some user)
    (he : user.mcpEndpoint ≠ "") :
    (apiStartS uid ok s).users
      = updateFirst (fun u => u.id == uid)
          (fun u => { u with status := "running",
                             pid := if ok then some s.nextPid else none }) s.users := by
  have hid : user.id = uid := find?_user_id _ _ _ hf
  simp only [apiStartS, apiStart, hf, if_neg he, startUserBridge, killUserBridge_state]
  rw [startSeg2]
  simp only [hid]
  obtain ⟨i, hi⟩ := findIdx?_some_of_find?_some _ _ _ hf
  simp only [hi]

theorem apiStart_recOf (uid : String) (ok : Bool) (s : SState) (user : UserRec)
    (hf : s.users.find? (fun u => u.id == uid) = some user)
    (he : user.mcpEndpoint ≠ "") :
    recOf uid (apiStartS uid ok s)
      = some { user with status := "running",
                         pid := if ok then some s.nextPid else none } := by
  rw [recOf, apiStart_users uid ok s user hf he,
    updateFirst_find? (fun u => u.id == uid)
      (fun u => { u with status := "running", pid := if ok then some s.nextPid else none })
      (fun a => rfl) s.users, hf]
  rfl

theorem apiStop_state (uid : String) (s : SState) (user : UserRec)
    (hf : s.users.find? (fun u => u.id == uid) = some user) :
    apiStopS uid s =
      { s with registry := regDelete s.registry uid,
               users := updateFirst (fun u => u.id == uid)
                  (fun u => { u with status := "stopped", pid := none }) s.users,
               live := s.live.filter (fun e => ¬ (e.1 == uid)),
               pending := s.pending ++ s.live.filter (fun e => e.1 == uid) } := by
  have hid : user.id = uid := find?_user_id _ _ _ hf
  simp only [apiStopS, apiStop, hf, stopSeg2, hid, killUserBridge_state]

theorem exitHandler_spec (uid : String) (s : SState) :
    regGet (exitHandler uid s).1.registry uid = none
    ∧ (∀ user, s.users.find? (fun u => u.id == uid) = some user →
        (exitHandler uid s).1.users.find? (fun u => u.id == uid)
          = some { user with status := "stopped", pid := none })
    ∧ (regGet s.registry uid = none →
        s.users.find? (fun u => u.id == uid) = none →
        (exitHandler uid s).1 = s)
    ∧ (∀ user, regGet s.registry uid = none →
        s.users.find? (fun u => u.id == uid) = some user →
        user.status = "stopped" → user.pid = none →
        (exitHandler uid s).1 = s) := by
  refine ⟨?_, fun user hf => ?_, fun hreg hf => ?_, fun user hreg hf hst hpd => ?_⟩
  · rw [exitHandler_registry]
    exact regGet_regDelete _ _
  · obtain ⟨i, hi⟩ := findIdx?_some_of_find?_some _ _ _ hf
    rw [exitHandler]
    simp only [hi]
    show (updateFirst _ _ s.users).find? _ = _
    rw [updateFirst_find? (fun u => u.id == uid)
      (fun u => { u with status := "stopped", pid := none }) (fun a => rfl) s.users, hf]
    rfl
  · rw [exitHandler]
    simp only [findIdx?_none_of_find?_none _ _ hf]
    simp [regDelete_of_regGet_none _ _ hreg]
  · obtain ⟨i, hi⟩ := findIdx?_some_of_find?_some _ _ _ hf
    rw [exitHandler]
    simp only [hi]
    have hsu : (fun u => ({ u with status := "stopped", pid := none} : UserRec)) user = user := by
      cases user
      simp_all
    rw [updateFirst_eq_self _ _ _ user hf hsu]
    simp [regDelete_of_regGet_none _ _ hreg]

theorem consistent_after_stop (uid : String) (s : SState) (user : UserRec)
    (hf : s.users.find? (fun u => u.id == uid) = some user) :
    ConsistentFor uid (apiStopS uid s) := by
  have hch := apiStop_state uid s user hf
  have hreg : regGet (apiStopS uid s).registry uid = none := by
    rw [hch]; exact regGet_regDelete _ _
  have hrec : recOf uid (apiStopS uid s)
      = some { user with status := "stopped", pid := none } := by
    rw [recOf, hch]
    show (updateFirst _ _ s.users).find? _ = _
    rw [updateFirst_find? (fun u => u.id == uid)
      (fun u => { u with status := "stopped", pid := none }) (fun a => rfl) s.users, hf]
    rfl
  constructor
  · intro h
    rw [hreg] at h
    simp at h
  · intro h
    rw [hrec] at h
    simp at h

theorem consistent_after_start (uid : String) (ok : Bool) (s : SState) (user : UserRec)
    (hf : s.users.find? (fun u => u.id == uid) = some user)
    (he : user.mcpEndpoint ≠ "") :
    ConsistentFor uid (apiStartS uid ok s) := by
  have hrec := apiStart_recOf uid ok s user hf he
  have hstarted : (apiStart uid ok s).1 = StartOut.started := by
    simp [apiStart, hf, he]
  have hreg : regGet (apiStartS uid ok s).registry uid
      = some (if ok then some s.nextPid else none) := by
    rw [apiStartS, apiStart_success_registry uid ok s hstarted]
    exact regGet_regSet_self _ _ _
  constructor
  · intro h
    rw [hrec] at h
    simp at h
  · intro h
    rw [hreg] at h
    simp at h

theorem sanitize_congr (a b : UserRec) (h : KeyMaskedEq a b) :
    ({ a with braveApiKey := if a.braveApiKey ≠ "" then "***" else "" } : UserRec)
      = { b with braveApiKey := if b.braveApiKey ≠ "" then "***" else "" } := by
  rcases h with h | ⟨ha, hb, hk⟩
  · rw [h]
  · have h3 := congrArg
      (fun u : UserRec => ({ u with braveApiKey := "***" } : UserRec)) hk
    rw [if_pos ha, if_pos hb]
    exact h3

theorem listUsers_congr :
    ∀ (l1 l2 : List UserRec), List.Forall₂ KeyMaskedEq l1 l2 →
      l1.map (fun u => { u with braveApiKey := if u.braveApiKey ≠ "" then "***" else "" })
        = l2.map (fun u => { u with braveApiKey := if u.braveApiKey ≠ "" then "***" else "" }) := by
  intro l1 l2 h
  induction h with
  | nil => rfl
  | cons hab htail ih =>
    rw [List.map_cons, List.map_cons, ih, sanitize_congr _ _ hab]

theorem apiStart_eq_segs (uid : String) (ok : Bool) (s : SState) (user : UserRec)
    (h : (startSeg1 uid s).1 = some user) :
    apiStartS uid ok s = (startSeg2 ok user (startSeg1 uid s).2.1).1 := by
  rcases hf : s.users.find? (fun u => u.id == uid) with _ | u
  · simp only [startSeg1, hf] at h
    exact absurd h (by simp)
  · by_cases he : u.mcpEndpoint = ""
    · simp only [startSeg1, hf, if_pos he] at h
      exact absurd h (by simp)
    · simp only [startSeg1, hf, if_neg he] at h ⊢
      injection h with h
      subst h
      simp only [apiStartS, apiStart, hf, if_neg he, startUserBridge, if_neg he]

theorem apiStop_eq_segs (uid : String) (s : SState) (captured : List UserRec)
    (h : (stopSeg1 uid s).1 = some captured) :
    apiStopS uid s = (stopSeg2 uid captured (stopSeg1 uid s).2.1).1 := by
  rcases hf : s.users.find? (fun u => u.id == uid) with _ | u
  · simp only [stopSeg1, hf] at h
    exact absurd h (by simp)
  · simp only [stopSeg1, hf] at h ⊢
    injection h with h
    subst h
    simp only [apiStopS, apiStop, hf]

theorem apiStartS_reachable (uid : String) (ok : Bool) (s : SState) :
    Relation.ReflTransGen Step s (apiStartS uid ok s) := by
  rcases hf : s.users.find? (fun u => u.id == uid) with _ | user
  · have h : apiStartS uid ok s = s := by simp [apiStartS, apiStart, hf]
    rw [h]
  · by_cases he : user.mcpEndpoint = ""
    · have h : apiStartS uid ok s = s := by simp [apiStartS, apiStart, hf, he]
      rw [h]
    · have h : apiStartS uid ok s
          = (startSeg2 ok user (killUserBridge user.id s).1).1 := by
        simp only [apiStartS, apiStart, hf, if_neg he, startUserBridge, if_neg he]
      rw [h]
      exact Relation.ReflTransGen.tail
        (Relation.ReflTransGen.single (Step.kill user.id s)) (Step.spawn ok user _)

theorem apiStopS_reachable (uid : String) (s : SState) :
    Relation.ReflTransGen Step s (apiStopS uid s) := by
  rcases hf : s.users.find? (fun u => u.id == uid) with _ | user
  · have h : apiStopS uid s = s := by simp [apiStopS, apiStop, hf]
    rw [h]
  · have h : apiStopS uid s
        = (stopSeg2 uid s.users (killUserBridge user.id s).1).1 := by
      simp only [apiStopS, apiStop, hf]
    rw [h]
    exact Relation.ReflTransGen.tail
      (Relation.ReflTransGen.single (Step.kill user.id s)) (Step.stopWrite uid s.users _)

theorem apiDeleteS_reachable (uid : String) (uf : Bool) (s : SState) :
    Relation.ReflTransGen Step s (apiDeleteS uid uf s) := by
  rcases hi : s.users.findIdx? (fun u => u.id == uid) with _ | i
  · have h : apiDeleteS uid uf s = s := by simp [apiDeleteS, apiDelete, hi]
    rw [h]
  · have h : apiDeleteS uid uf s
        = (deleteFinish uid uf s.users i (killUserBridge uid s).1).1 := by
      simp only [apiDeleteS, apiDelete, hi]
    rw [h]
    exact Relation.ReflTransGen.tail
      (Relation.ReflTransGen.single (Step.kill uid s)) (Step.delFinish uid uf s.users i _)

theorem apiCreateS_reachable (body : CreateBody) (now : Nat) (ca : String) (s : SState) :
    Relation.ReflTransGen Step s (apiCreateS body now ca s) :=
  Relation.ReflTransGen.single (Step.create body now ca s)

theorem apiUpdateS_reachable (uid : String) (body : UpdateBody) (ok : Bool) (s : SState) :
    Relation.ReflTransGen Step s (apiUpdateS uid body ok s) := by
  rcases hi : s.users.findIdx? (fun u => u.id == uid) with _ | i
  · have h : apiUpdateS uid body ok s = s := by simp [apiUpdateS, apiUpdate, hi]
    rw [h]
  · rcases hu : (updateFields uid body s).1.users.find? (fun u => u.id == uid) with _ | u2
    · have h : apiUpdateS uid body ok s = (updateFields uid body s).1 := by
        simp [apiUpdateS, apiUpdate, hi, hu]
      rw [h]
      exact Relation.ReflTransGen.single (Step.updateF uid body s)
    · by_cases hr : u2.status = "running"
      · by_cases he : u2.mcpEndpoint = ""
        · have h : apiUpdateS uid body ok s
              = (killUserBridge u2.id (updateFields uid body s).1).1 := by
            simp only [apiUpdateS, apiUpdate, hi, hu, if_pos hr, startUserBridge, if_pos he]
          rw [h]
          exact Relation.ReflTransGen.tail
            (Relation.ReflTransGen.single (Step.updateF uid body s))
            (Step.kill u2.id _)
        · have h : apiUpdateS uid body ok s
              = (startSeg2 ok u2 (killUserBridge u2.id (updateFields uid body s).1).1).1 := by
            simp only [apiUpdateS, apiUpdate, hi, hu, if_pos hr, startUserBridge, if_neg he]
          rw [h]
          exact Relation.ReflTransGen.tail
            (Relation.ReflTransGen.tail
              (Relation.ReflTransGen.single (Step.updateF uid body s))
              (Step.kill u2.id _))
            (Step.spawn ok u2 _)
      · have h : apiUpdateS uid body ok s = (updateFields uid body s).1 := by
          simp [apiUpdateS, apiUpdate, hi, hu, hr]
        rw [h]
        exact Relation.ReflTransGen.single (Step.updateF uid body s)


/-! ### The claims -/

/-- Claim C1: at every reachable state of the orchestrator the Process
Registry (`bridgeProcesses`) holds at most one handle per user id; a
successful `start` leaves exactly one handle for the started user; and when
a handle already existed, the event trace of the `start` begins by killing
that old handle before anything else (retire before register). -/
theorem claim_C1 (s : SState) (hs : Reachable s) :
    (∀ uid, countKey uid s.registry ≤ 1)
    ∧ (∀ uid ok, (apiStart uid ok s).1 = StartOut.started →
        countKey uid (apiStart uid ok s).2.1.registry = 1)
    ∧ (∀ uid ok h0, regGet s.registry uid = some h0 →
        (apiStart uid ok s).1 = StartOut.started →
        ∃ rest, (apiStart uid ok s).2.2 = Ev.sigkill h0 :: Ev.patternKill uid :: rest) := by
  refine ⟨fun uid => countKey_le_one_of_nodup _ _ (reachable_RegOk s hs),
          fun uid ok h => ?_, fun uid ok h0 hreg h => ?_⟩
  · rw [apiStart_success_registry uid ok s h]
    exact countKey_regSet_after_delete _ _ _
  · rcases hf : s.users.find? (fun u => u.id == uid) with _ | user
    · rw [apiStart, hf] at h; exact absurd h (by simp)
    · have hid : user.id = uid := find?_user_id _ _ _ hf
      simp only [apiStart, hf] at h ⊢
      by_cases he : user.mcpEndpoint = ""
      · rw [if_pos he] at h; exact absurd h (by simp)
      · rw [if_neg he]
        show ∃ rest, (startUserBridge ok user s).2.2 = _
        rw [startUserBridge, if_neg he]
        show ∃ rest,
          (killUserBridge user.id s).2 ++ (startSeg2 ok user (killUserBridge user.id s).1).2 = _
        rw [hid, killUserBridge_events_some uid s h0 hreg]
        exact ⟨_, rfl⟩

/-- Witness for claim C1 at the concrete initial one-user state. -/
theorem claim_C1_witness :
    countKey "u1" demoInit.registry ≤ 1
    ∧ countKey "u1" (apiStart "u1" true demoInit).2.1.registry = 1 :=
  ⟨(claim_C1 demoInit ⟨[demoUser], [], Relation.ReflTransGen.refl⟩).1 "u1",
   (claim_C1 demoInit ⟨[demoUser], [], Relation.ReflTransGen.refl⟩).2.1 "u1" true
     (by decide)⟩

/-- Claim C2 (amended): a delivered termination notification for a user
unconditionally deletes whatever Registry binding that user id currently
has - even a binding for a different, newer process - and, whenever the
persisted record exists, writes `status=stopped, pid=null`; it is a no-op
on Registry and record only when the Registry has no binding for the user
and the record is absent or already reads `stopped`/`null`. -/
theorem claim_C2 (uid : String) (p : Nat) (s : SState) :
    regGet (deliverExit uid p s).registry uid = none
    ∧ (∀ user, s.users.find? (fun u => u.id == uid) = some user →
        (deliverExit uid p s).users.find? (fun u => u.id == uid)
          = some { user with status := "stopped", pid := none })
    ∧ (regGet s.registry uid = none →
        s.users.find? (fun u => u.id == uid) = none →
        (deliverExit uid p s).registry = s.registry
          ∧ (deliverExit uid p s).users = s.users)
    ∧ (∀ user, regGet s.registry uid = none →
        s.users.find? (fun u => u.id == uid) = some user →
        user.status = "stopped" → user.pid = none →
        (deliverExit uid p s).registry = s.registry
          ∧ (deliverExit uid p s).users = s.users) := by
  have h := exitHandler_spec uid { s with pending := removeOne (uid, p) s.pending }
  refine ⟨?_, fun user hf => ?_, fun hr hf => ?_, fun user hr hf hst hpd => ?_⟩
  · simpa [deliverExit] using h.1
  · simpa [deliverExit] using h.2.1 user hf
  · have h2 := h.2.2.1 hr hf
    constructor
    · simp only [deliverExit, h2]
    · simp only [deliverExit, h2]
  · have h2 := h.2.2.2 user hr hf hst hpd
    constructor
    · simp only [deliverExit, h2]
    · simp only [deliverExit, h2]

/-- Counterexample to claim C2 as stated: after two consecutive starts of
`u1`, the exit notification of the first (killed) process `0` is still
pending while the Registry holds the newer handle `1`; delivering it is
not a no-op - it deletes the newer handle and flips the record to
`stopped`/`null`. -/
theorem claim_C2_counterexample :
    ("u1", 0) ∈ raceState.pending
    ∧ regGet raceState.registry "u1" = some (some 1)
    ∧ (recOf "u1" raceState).map UserRec.status = some "running"
    ∧ regGet (deliverExit "u1" 0 raceState).registry "u1" = none
    ∧ (recOf "u1" (deliverExit "u1" 0 raceState)).map UserRec.status = some "stopped"
    ∧ (recOf "u1" (deliverExit "u1" 0 raceState)).map UserRec.pid = some none := by
  decide

/-- Witness for claim C2: in the initial state (no Registry binding, record
already stopped with null pid) a stray notification leaves Registry and
record unchanged. -/
theorem claim_C2_witness :
    (deliverExit "u1" 5 demoInit).registry = demoInit.registry
    ∧ (deliverExit "u1" 5 demoInit).users = demoInit.users :=
  (claim_C2 "u1" 5 demoInit).2.2.2 demoUser (by decide) (by decide) rfl rfl

/-- Claim C3: starting a user whose `mcpEndpoint` is empty answers
`MissingEndpoint` and performs no action at all: the whole server state is
unchanged and the event trace is empty (no kill, no spawn, no writes). -/
theorem claim_C3 (uid : String) (ok : Bool) (s : SState) (user : UserRec)
    (hf : s.users.find? (fun u => u.id == uid) = some user)
    (he : user.mcpEndpoint = "") :
    apiStart uid ok s = (StartOut.missingEndpoint, s, []) := by
  simp only [apiStart, hf, if_pos he]

/-- Witness for claim C3 at a concrete user without an endpoint. -/
theorem claim_C3_witness :
    apiStart "u2" true noEpInit = (StartOut.missingEndpoint, noEpInit, []) :=
  claim_C3 "u2" true noEpInit demoNoEndpoint (by decide) rfl

/-- Claim C4: after `stop` of an existing user - with or without a live
handle - the Registry has no binding for the user and the persisted record
reads `status=stopped, pid=null`; a second `stop` reproduces the identical
state (idempotence). -/
theorem claim_C4 (uid : String) (s : SState) (user : UserRec)
    (hf : s.users.find? (fun u => u.id == uid) = some user) :
    regGet (apiStopS uid s).registry uid = none
    ∧ (apiStopS uid s).users.find? (fun u => u.id == uid)
        = some { user with status := "stopped", pid := none }
    ∧ apiStopS uid (apiStopS uid s) = apiStopS uid s := by
  have hch := apiStop_state uid s user hf
  have hfind1 : (apiStopS uid s).users.find? (fun u => u.id == uid)
      = some { user with status := "stopped", pid := none } := by
    rw [hch]
    show (updateFirst _ _ s.users).find? _ = _
    rw [updateFirst_find? (fun u => u.id == uid)
      (fun u => { u with status := "stopped", pid := none }) (fun a => rfl) s.users, hf]
    rfl
  refine ⟨?_, hfind1, ?_⟩
  · rw [hch]
    exact regGet_regDelete _ _
  · have hch2 := apiStop_state uid (apiStopS uid s)
      { user with status := "stopped", pid := none } hfind1
    rw [hch2, hch]
    congr 1
    · exact regDelete_idem _ _
    · show updateFirst _ _ (updateFirst _ _ s.users) = updateFirst _ _ s.users
      refine updateFirst_eq_self _ _ _
        ({ user with status := "stopped", pid := none }) ?_ rfl
      rw [updateFirst_find? (fun u => u.id == uid)
        (fun u => { u with status := "stopped", pid := none }) (fun a => rfl) s.users, hf]
      rfl
    · exact filter_not_key_idem _ _
    · rw [filter_key_of_filter_not]
      exact List.append_nil _

/-- Witness for claim C4 at a concrete one-user state. -/
theorem claim_C4_witness :
    regGet (apiStopS "u1" demoInit).registry "u1" = none
    ∧ (apiStopS "u1" demoInit).users.find? (fun u => u.id == "u1")
        = some { demoUser with status := "stopped", pid := none }
    ∧ apiStopS "u1" (apiStopS "u1" demoInit) = apiStopS "u1" demoInit :=
  claim_C4 "u1" demoInit demoUser (by decide)

/-- Claim C5 (amended): a start attempt rejected before any process action
(unknown user, or missing endpoint) leaves the state unchanged; but every
start that reaches the spawn marks the persisted record `running` - with
`pid` the fresh pid, or no pid at all when the spawn failed - so a spawn
failure does not leave the record `stopped`. -/
theorem claim_C5 (uid : String) (ok : Bool) (s : SState) :
    (s.users.find? (fun u => u.id == uid) = none →
      apiStart uid ok s = (StartOut.notFound, s, []))
    ∧ (∀ user, s.users.find? (fun u => u.id == uid) = some user →
        user.mcpEndpoint = "" → apiStart uid ok s = (StartOut.missingEndpoint, s, []))
    ∧ (∀ user, s.users.find? (fun u => u.id == uid) = some user →
        user.mcpEndpoint ≠ "" →
        recOf uid (apiStartS uid ok s)
          = some { user with status := "running",
                             pid := if ok then some s.nextPid else none }) := by
  refine ⟨fun hf => ?_, fun user hf he => ?_, fun user hf he => ?_⟩
  · simp only [apiStart, hf]
  · simp only [apiStart, hf, if_pos he]
  · exact apiStart_recOf uid ok s user hf he

/-- Counterexample to claim C5 as stated: on a user whose record reads
`stopped`, a start whose spawn fails still rewrites the record to
`running` with a null pid, instead of leaving it `stopped`. -/
theorem claim_C5_counterexample :
    demoUser.status = "stopped"
    ∧ (recOf "u1" demoInit).map UserRec.status = some "stopped"
    ∧ recOf "u1" (apiStartS "u1" false demoInit)
        = some { demoUser with status := "running", pid := none } := by
  decide

/-- Witness for claim C5: a successful concrete start marks the record
running with the fresh pid. -/
theorem claim_C5_witness :
    recOf "u1" (apiStartS "u1" true demoInit)
      = some { demoUser with status := "running", pid := some 0 } :=
  (claim_C5 "u1" true demoInit).2.2 demoUser (by decide) (by decide)

/-- Claim C6: the materialized capability map contains the search
capability iff the search flag is set and the key is non-empty, the
weather capability iff the weather flag is set, always contains the
news/feed capability parameterized only by the user id, and a user with
search disabled and weather enabled yields exactly the keys
`weather`, `rss-news`. -/
theorem claim_C6 (user : UserRec) :
    ((generateUserConfig user).lookup "brave-search" ≠ none
        ↔ (user.braveEnabled = true ∧ user.braveApiKey ≠ ""))
    ∧ ((generateUserConfig user).lookup "weather" ≠ none ↔ user.weatherEnabled = true)
    ∧ (generateUserConfig user).lookup "rss-news"
        = some (Desc.command PYTHON_PATH ["rss-server.py", "--user", user.id] "stdio")
    ∧ (user.braveEnabled = false → user.weatherEnabled = true →
        (generateUserConfig user).map Prod.fst = ["weather", "rss-news"]) := by
  cases hb : user.braveEnabled <;> cases hw : user.weatherEnabled <;>
    by_cases hk : user.braveApiKey = "" <;>
      simp [generateUserConfig, hb, hw, hk, List.lookup]

/-- Witness for claim C6 at a concrete user (search off, weather on). -/
theorem claim_C6_witness :
    (generateUserConfig demoUser).map Prod.fst = ["weather", "rss-news"]
    ∧ (generateUserConfig demoUser).lookup "rss-news"
        = some (Desc.command PYTHON_PATH ["rss-server.py", "--user", "u1"] "stdio") :=
  ⟨(claim_C6 demoUser).2.2.2 rfl rfl, (claim_C6 demoUser).2.2.1⟩

/-- Claim C7: user deletion reports success and erases the record for any
outcome of the config-artifact unlink (non-fatal), retires the worker, and
its event trace is exactly kill events, then the unlink of the artifact,
then the write that erases the record - stop, then artifact, then record,
never another order. -/
theorem claim_C7 (uid : String) (uf : Bool) (s : SState) (i : Nat)
    (hidx : s.users.findIdx? (fun u => u.id == uid) = some i) :
    (apiDelete uid uf s).1 = true
    ∧ (apiDelete uid uf s).2.1.users = s.users.eraseIdx i
    ∧ (apiDelete uid uf s).2.1.registry = regDelete s.registry uid
    ∧ (apiDelete uid uf s).2.2
        = (killUserBridge uid s).2 ++ [Ev.unlinkConfig uid, Ev.writeUsersFile] := by
  refine ⟨?_, ?_, ?_, ?_⟩ <;>
    simp [apiDelete, hidx, deleteFinish, killUserBridge_registry]

/-- Witness for claim C7 at a concrete one-user state (unlink failing). -/
theorem claim_C7_witness :
    (apiDelete "u1" false demoInit).1 = true
    ∧ (apiDelete "u1" false demoInit).2.1.users = demoInit.users.eraseIdx 0
    ∧ (apiDelete "u1" false demoInit).2.1.registry = regDelete demoInit.registry "u1"
    ∧ (apiDelete "u1" false demoInit).2.2
        = (killUserBridge "u1" demoInit).2 ++ [Ev.unlinkConfig "u1", Ev.writeUsersFile] :=
  claim_C7 "u1" false demoInit 0 (by decide)

/-- Claim C8 (amended): each of the two fully serialized orders of a
`start` and a `stop` for the same existing user does end in a consistent
state (never a Registry handle with persisted `stopped`, nor no handle with
persisted `running` and a pid); the counterexample shows the operations
are not actually serialized, so an interleaving can still end
inconsistent. -/
theorem claim_C8 (uid : String) (s : SState) (user : UserRec)
    (hf : s.users.find? (fun u => u.id == uid) = some user) :
    ConsistentFor uid (apiStopS uid (apiStartS uid true s))
    ∧ ConsistentFor uid (apiStartS uid true (apiStopS uid s)) := by
  constructor
  · by_cases he : user.mcpEndpoint = ""
    · have hid : apiStartS uid true s = s := by
        simp [apiStartS, apiStart, hf, he]
      rw [hid]
      exact consistent_after_stop uid s user hf
    · have hrec := apiStart_recOf uid true s user hf he
      rw [recOf] at hrec
      exact consistent_after_stop _ _ _ hrec
  · have hch := apiStop_state uid s user hf
    have hrec1 : (apiStopS uid s).users.find? (fun u => u.id == uid)
        = some { user with status := "stopped", pid := none } := by
      rw [hch]
      show (updateFirst _ _ s.users).find? _ = _
      rw [updateFirst_find? (fun u => u.id == uid)
        (fun u => { u with status := "stopped", pid := none }) (fun a => rfl) s.users, hf]
      rfl
    by_cases he : user.mcpEndpoint = ""
    · have hid : apiStartS uid true (apiStopS uid s) = apiStopS uid s := by
        simp [apiStartS, apiStart, hrec1, he]
      rw [hid]
      exact consistent_after_stop uid s user hf
    · exact consistent_after_start uid true (apiStopS uid s) _ hrec1 he

/-- Counterexample to claim C8 as stated: the interleaving that runs the
stop route up to its await, then the whole start route, then the stop
resumption, ends with the Registry holding a live handle while the
persisted record reads `stopped`/`null` - matching neither serialized
order, whose final states are also computed here. -/
theorem claim_C8_counterexample :
    (stopSeg1 "u1" demoInit).1 = some demoInit.users
    ∧ (startSeg1 "u1" (stopSeg1 "u1" demoInit).2.1).1 = some demoUser
    ∧ ¬ ConsistentFor "u1" interleavedState
    ∧ (regGet interleavedState.registry "u1").isSome = true
    ∧ (recOf "u1" interleavedState).map UserRec.status = some "stopped"
    ∧ regGet (apiStopS "u1" (apiStartS "u1" true demoInit)).registry "u1" = none
    ∧ (recOf "u1" (apiStopS "u1" (apiStartS "u1" true demoInit))).map UserRec.status
        = some "stopped"
    ∧ (regGet (apiStartS "u1" true (apiStopS "u1" demoInit)).registry "u1").isSome = true
    ∧ (recOf "u1" (apiStartS "u1" true (apiStopS "u1" demoInit))).map UserRec.status
        = some "running" := by
  refine ⟨rfl, rfl, ?_, rfl, rfl, rfl, rfl, rfl, rfl⟩
  decide

/-- Witness for claim C8: both serialized orders at a concrete state are
consistent. -/
theorem claim_C8_witness :
    ConsistentFor "u1" (apiStopS "u1" (apiStartS "u1" true demoInit))
    ∧ ConsistentFor "u1" (apiStartS "u1" true (apiStopS "u1" demoInit)) :=
  claim_C8 "u1" demoInit demoUser (by decide)

/-- Claim C9: every user created through `POST /api/users` enters the
system with `status=stopped`, `pid=null` and defaults for omitted fields,
and the result ignores any caller-supplied `status`/`pid` entirely. -/
theorem claim_C9 (body : CreateBody) (now : Nat) (ca : String) (s : SState) :
    (∀ u' s1 evs, apiCreate body now ca s = (some u', s1, evs) →
      u'.status = "stopped" ∧ u'.pid = none
      ∧ s1.users = s.users ++ [u']
      ∧ (body.mcpEndpoint = none → u'.mcpEndpoint = "")
      ∧ (body.braveEnabled = none → u'.braveEnabled = false)
      ∧ (body.braveApiKey = none → u'.braveApiKey = "")
      ∧ (body.weatherEnabled = none → u'.weatherEnabled = false)
      ∧ (body.feeds = none → u'.feeds = []))
    ∧ (∀ st pd, apiCreate { body with status := st, pid := pd } now ca s
        = apiCreate body now ca s) := by
  constructor
  · intro u' s1 evs h
    cases hn : body.name with
    | none => simp only [apiCreate, hn] at h; simp at h
    | some nm =>
      simp only [apiCreate, hn] at h
      by_cases hnm : nm = ""
      · rw [if_pos hnm] at h; exact absurd h (by simp)
      · rw [if_neg hnm] at h
        injection h with h1 h2
        injection h2 with h2 h3
        subst h2
        injection h1 with h1
        subst h1
        refine ⟨rfl, rfl, rfl, ?_, ?_, ?_, ?_, ?_⟩ <;> intro hb <;> simp [hb]
  · intro st pd
    rfl

/-- Witness for claim C9: a concrete creation request that tries to
smuggle `status=running, pid=9` still yields a stopped record. -/
theorem claim_C9_witness :
    demoCreated.status = "stopped" ∧ demoCreated.pid = none
    ∧ (apiCreate demoBody 42 "t1" demoInit).2.1.users = demoInit.users ++ [demoCreated]
    ∧ (demoBody.mcpEndpoint = none → demoCreated.mcpEndpoint = "")
    ∧ (demoBody.braveEnabled = none → demoCreated.braveEnabled = false)
    ∧ (demoBody.braveApiKey = none → demoCreated.braveApiKey = "")
    ∧ (demoBody.weatherEnabled = none → demoCreated.weatherEnabled = false)
    ∧ (demoBody.feeds = none → demoCreated.feeds = []) := by
  have h := (claim_C9 demoBody 42 "t1" demoInit).1 demoCreated
    { demoInit with users := demoInit.users ++ [demoCreated] } [Ev.writeUsersFile] (by decide)
  exact ⟨h.1, h.2.1, by decide, h.2.2.2.1, h.2.2.2.2.1, h.2.2.2.2.2.1,
    h.2.2.2.2.2.2.1, h.2.2.2.2.2.2.2⟩

/-- Claim C10: the user list masks the stored search key - `***` when
non-empty, empty string when empty - and two states whose user lists agree
except for the values of non-empty stored keys produce identical list
responses. -/
theorem claim_C10 (s1 s2 : SState) :
    (∀ (i : Nat) (u0 : UserRec), s1.users[i]? = some u0 →
      (listUsers s1)[i]?
        = some { u0 with braveApiKey := if u0.braveApiKey ≠ "" then "***" else "" })
    ∧ (List.Forall₂ KeyMaskedEq s1.users s2.users → listUsers s1 = listUsers s2) := by
  constructor
  · intro i u0 h
    rw [listUsers, List.getElem?_map, h]
    rfl
  · intro h
    rw [listUsers, listUsers]
    exact listUsers_congr _ _ h

/-- Witness for claim C10: two states differing only in the non-empty key
of one user produce the same (masked) listing. -/
theorem claim_C10_witness :
    (listUsers (initState [secretUserA] []))[0]?
      = some { secretUserA with braveApiKey := "***" }
    ∧ listUsers (initState [secretUserA] []) = listUsers (initState [secretUserB] []) :=
  ⟨(claim_C10 (initState [secretUserA] []) (initState [secretUserB] [])).1 0
      secretUserA (by decide),
   (claim_C10 (initState [secretUserA] []) (initState [secretUserB] [])).2
      (List.Forall₂.cons (Or.inr (by decide)) List.Forall₂.nil)⟩
